import Mathlib

/-!
Verification of the instaman copy-job scheduling and execution core.

This file shallowly embeds the Go sources of the repository:

* `database/models/models.go` and `database/models/values.go`
  (job model, `NewCopyJob`, frequency/state/type validation),
* `instaproxy/models.go` (`Connections` pages, users),
* `service/worker.go` (`RunCopyJob`, `NextCopyJob`, `randDuration`,
  the `attempts` / `pauseBetweenAttempts` constants),
* `database/worker.go` (`NextJob`, `ScheduleJob`, `StoreCopyJobResults`,
  `InsertJobEvent`, `TouchJob`, `urlStringPtr`).

Conventions of the embedding:

* Go `time.Duration` values are `Int` nanosecond counts.
* Timestamps (`NOW()`, `first_seen`, `last_seen`, `next_run`) are `Int`.
* JSON byte payloads are represented by the outcome of decoding them:
  `Except String (Option CopyJobMetadata)` -- `.error` for malformed JSON,
  `.ok none` for the JSON literal `null` (Go decodes it into a nil
  `*CopyJobMetadata`), `.ok (some m)` for an object (missing fields become
  Go zero values: `userID = 0`, `frequency = ""`, `cursor = nil`).
* The external proxy and the random generator are oracles in `RunEnv`:
  `fetch a` is the response of the `a`-th `GetFollowers` call of the run,
  `r` is the value drawn by `rand.IntN (to - from)` inside `randDuration`,
  `storeErr a` / `scheduleErr` are the failure outcomes of the
  corresponding database calls.
* `RunCopyJob` and the store operations additionally return the ordered
  trace of their observable effects (`Eff`), so that claims about which
  calls happen (and in which order) can be stated.
* A Go run-time crash (nil-pointer dereference) is the `GoResult.crash`
  outcome; normal returns are `.ok` / `.err`.
-/

namespace Instaman

/-! ### database/models: constants and validation (values.go) -/

def JobFrequencyDaily : String := "daily"

def JobFrequencyWeekly : String := "weekly"

def JobStateActive : String := "active"

def JobStateError : String := "error"

def JobStateNew : String := "new"

def JobStatePaused : String := "pause"

def JobTypeCopyFollowers : String := "copy-followers"

def JobTypeCopyFollowing : String := "copy-following"

/-- `IsValidJobFrequency` from values.go. -/
def IsValidJobFrequency (jobFreq : String) : Bool :=
  jobFreq = JobFrequencyDaily || jobFreq = JobFrequencyWeekly

/-- `IsValidJobState` from values.go. -/
def IsValidJobState (s : String) : Bool :=
  s = JobStateActive || s = JobStateError || s = JobStateNew || s = JobStatePaused

/-- `IsValidJobType` from values.go. -/
def IsValidJobType (t : String) : Bool :=
  t = JobTypeCopyFollowers || t = JobTypeCopyFollowing

/-! ### database/models: `CopyJobMetadata`, `Job`, `CopyJob`, `NewCopyJob` -/

/-- `models.CopyJobMetadata`: the decoded `jobs.metadata` payload of a
copy-typed job. -/
structure CopyJobMetadata where
  cursor : Option String
  frequency : String
  userID : Int
deriving DecidableEq, Repr

instance exceptDecEq {ε α : Type} [DecidableEq ε] [DecidableEq α] :
    DecidableEq (Except ε α) := fun x y =>
  match x, y with
  | .ok a, .ok b =>
    if h : a = b then .isTrue (by rw [h])
    else .isFalse (by intro hc; cases hc; exact h rfl)
  | .error a, .error b =>
    if h : a = b then .isTrue (by rw [h])
    else .isFalse (by intro hc; cases hc; exact h rfl)
  | .ok _, .error _ => .isFalse (by intro hc; cases hc)
  | .error _, .ok _ => .isFalse (by intro hc; cases hc)

/-- `models.Job`: one record of the `jobs` table. The raw `BinData` byte
payload is represented by the outcome of JSON-decoding it (see module
comment). -/
structure MJob where
  binData : Except String (Option CopyJobMetadata)
  id : Int
  checksum : String
  jobType : String
  label : String
  lastRun : Option Int
  nextRun : Option Int
  state : String
deriving DecidableEq, Repr

/-- `models.CopyJob`: a `Job` together with its validated metadata.
(`Results` and `Total` are set to `nil` / `0` by `NewCopyJob` and never
read by the worker; they are omitted.) -/
structure CopyJob where
  job : MJob
  metadata : CopyJobMetadata
deriving DecidableEq, Repr

/-- Outcome of a Go function that can also crash at run time
(nil-pointer dereference). -/
inductive GoResult (α : Type) where
  | ok (a : α)
  | err (e : String)
  | crash
deriving DecidableEq, Repr

/-- The two normalization statements of `NewCopyJob` (models.go lines
95-101): an empty-string cursor becomes nil, an invalid frequency
becomes `daily`. -/
def normalizeMeta (m0 : CopyJobMetadata) : CopyJobMetadata :=
  let m1 := if m0.cursor = some "" then { m0 with cursor := none } else m0
  if IsValidJobFrequency m1.frequency then m1 else { m1 with frequency := JobFrequencyDaily }

/-- `models.NewCopyJob` (models.go lines 76-109).  Checks the job type,
decodes the metadata, rejects `UserID < 1`, normalizes an empty-string
cursor to absent and an invalid frequency to `daily`.

When the payload is the JSON literal `null`, `d.Decode(&m)` succeeds and
leaves `m` as a nil pointer, so the subsequent `m.UserID` dereference
crashes: this is the `.ok none` branch below. -/
def newCopyJob (j : MJob) : GoResult CopyJob :=
  if j.jobType ≠ JobTypeCopyFollowers ∧ j.jobType ≠ JobTypeCopyFollowing then
    .err "not a CopyJob"
  else
    match j.binData with
    | .error e => .err ("job has invalid metadata: " ++ e)
    | .ok none => .crash
    | .ok (some m0) =>
      if m0.userID < 1 then
        .err "invalid user ID"
      else
        .ok { job := j, metadata := normalizeMeta m0 }

/-! ### instaproxy: users and connection pages (models.go) -/

/-- `instaproxy.User`.  The `URLField` picture URL is represented by its
URL string (`URLField.String()`). -/
structure IGUser where
  fullName : String
  handler : String
  id : Int
  pictureURL : Option String
deriving DecidableEq, Repr

/-- `instaproxy.Connections`: one page of followers/following. -/
structure Connections where
  next : Option String
  users : List IGUser
deriving DecidableEq, Repr

/-! ### service/worker.go: constants and `randDuration` -/

/-- `attempts` (worker.go line 42): pages fetched consecutively per run. -/
def attempts : Nat := 4

/-- `pauseBetweenAttempts` (worker.go line 43): seconds slept between
fetches. -/
def pauseBetweenAttempts : Int := 5

def secondNs : Int := 1000000000

def minuteNs : Int := 60 * secondNs

def hourNs : Int := 60 * minuteNs

/-- `randDuration(from, to)` (worker.go lines 206-210) returns
`from + rand.IntN(to-from)` as a `time.Duration`.  The draw of
`rand.IntN (to - from)` is the explicit argument `r`; its range
`0 ≤ r < to - from` is a hypothesis of the theorems that use it. -/
def randDuration (lo _hi r : Int) : Int :=
  lo + r

/-! ### service/worker.go: the copy-job runner as a trace-producing
function -/

/-- Observable effects of one `RunCopyJob` invocation, in order.
`fetch` records a proxy call (`direction` is the proxy endpoint family:
`"followers"` for `GetFollowers`, `"following"` for `GetFollowing`);
`event`/`progressEvent` are `InsertJobEvent` calls (`progressEvent`
carries the data interpolated into the `"Copied %d users. Next cursor:
%v"` message); `markError` is the `UpdateJob` call that sets
`state = error`; `store` is a `StoreCopyJobResults` call; `schedule` is
a `ScheduleJob` call with its delay; `sleep` is a `time.Sleep`. -/
inductive Eff where
  | fetch (direction : String) (userID : Int) (cursor : Option String)
  | event (jobID : Int) (msg : String)
  | progressEvent (jobID : Int) (usersCopied : Nat) (next : Option String)
  | markError (jobID : Int)
  | store (jobID : Int) (page : Connections)
  | schedule (jobID : Int) (delayNs : Int)
  | sleep (ns : Int)
deriving DecidableEq, Repr

/-- Errors returned by `RunCopyJob`: `noRetry` wraps a fetch failure
(`ErrNoRetry` joined with the proxy error), `dbFailure` wraps a store
failure (`ErrDBFailure`). -/
inductive RunErr where
  | noRetry (e : String)
  | dbFailure (e : String)
deriving DecidableEq, Repr

/-- Oracles for one `RunCopyJob` invocation (see module comment). -/
structure RunEnv where
  fetch : Nat → Except String Connections
  storeErr : Nat → Option String
  r : Int
  scheduleErr : Option String

/-- The attempt loop of `RunCopyJob` (worker.go lines 147-180), written
as structural recursion on the number `n` of remaining iterations; `a`
is the Go loop variable of `for a := range attempts` and `cursor` the
current pagination cursor.  Returns the Go `done` flag (or the error
that aborted the loop) and the effect trace.

The fetch is `w.instagram.GetFollowers` for every job type (worker.go
line 149), hence the literal `"followers"` direction.  The final
`switch` mirrors the source: the first case (`cursor == nil,
*cursor == ""`) sets `done` and breaks; the second case sleeps whenever
`a != attempts`. -/
def copyLoop (env : RunEnv) (cj : CopyJob) : Nat → Nat → Option String →
    Except RunErr Bool × List Eff
  | 0, _, _ => (.ok false, [])
  | n + 1, a, cursor =>
    let f : Eff := .fetch "followers" cj.metadata.userID cursor
    match env.fetch a with
    | .error e =>
      (.error (.noRetry e), [f, .markError cj.job.id, .event cj.job.id e])
    | .ok res =>
      let cursor' := res.next
      match env.storeErr a with
      | some e => (.error (.dbFailure e), [f, .store cj.job.id res])
      | none =>
        let effs : List Eff :=
          [f, .store cj.job.id res, .progressEvent cj.job.id res.users.length cursor']
        if cursor' = none ∨ cursor' = some "" then
          (.ok true, effs)
        else if a ≠ attempts then
          let rec' := copyLoop env cj n (a + 1) cursor'
          (rec'.1, effs ++ .sleep (pauseBetweenAttempts * secondNs) :: rec'.2)
        else
          let rec' := copyLoop env cj n (a + 1) cursor'
          (rec'.1, effs ++ rec'.2)

/-- `Worker.RunCopyJob` (worker.go lines 140-203).  Appends the pickup
audit event, runs the attempt loop, computes the reschedule delay
(`time.Minute * randDuration(20, 30)`, overridden to 24h / 7×24h when
the sync completed and the frequency is `daily` / `weekly`), and calls
`ScheduleJob`. -/
def runCopyJob (env : RunEnv) (cj : CopyJob) : Except RunErr Unit × List Eff :=
  let e0 : Eff := .event cj.job.id "job picked up for execution"
  match copyLoop env cj attempts 0 cj.metadata.cursor with
  | (.error e, tr) => (.error e, e0 :: tr)
  | (.ok done, tr) =>
    let freq0 := minuteNs * randDuration 20 30 env.r
    let freq :=
      if done then
        if cj.metadata.frequency = JobFrequencyDaily then hourNs * 24
        else if cj.metadata.frequency = JobFrequencyWeekly then hourNs * 24 * 7
        else freq0
      else freq0
    let effs1 : List Eff := if done then [.event cj.job.id "Sync completed"] else []
    match env.scheduleErr with
    | some e => (.error (.dbFailure e), e0 :: tr ++ effs1 ++ [.schedule cj.job.id freq])
    | none => (.ok (), e0 :: tr ++ effs1 ++ [.schedule cj.job.id freq])

/-- The delays of the `ScheduleJob` calls recorded in a trace. -/
def scheduleDelays (tr : List Eff) : List Int :=
  tr.filterMap fun e =>
    match e with
    | .schedule _ d => some d
    | _ => none

/-- Number of `time.Sleep` effects in a trace. -/
def sleepCount (tr : List Eff) : Nat :=
  (tr.filter fun e =>
    match e with
    | .sleep _ => true
    | _ => false).length

/-- Whether every proxy call in a trace targets the given endpoint
family. -/
def allFetchesAre (direction : String) (tr : List Eff) : Bool :=
  tr.all fun e =>
    match e with
    | .fetch d _ _ => d = direction
    | _ => true

/-- Number of proxy fetches in a trace. -/
def fetchCount (tr : List Eff) : Nat :=
  (tr.filter fun e =>
    match e with
    | .fetch _ _ _ => true
    | _ => false).length

/-! ### database/worker.go: the job store -/

/-- One row of the `user_followers` / `user_following` tables. -/
structure UserRow where
  accountID : Int
  userID : Int
  firstSeen : Int
  lastSeen : Int
  handler : String
  picURL : Option String
deriving DecidableEq, Repr

/-- One row of the `jobs` table, with its `metadata` jsonb column
decoded structurally. -/
structure JobsRow where
  id : Int
  checksum : String
  jobType : String
  label : String
  lastRun : Option Int
  nextRun : Option Int
  state : String
  metadata : CopyJobMetadata
deriving DecidableEq, Repr

/-- The tables touched by the copy-job store operations. -/
structure DBState where
  followers : List UserRow
  following : List UserRow
  jobs : List JobsRow
deriving DecidableEq, Repr

/-- `urlStringPtr` (database/worker.go lines 150-162): a nil or
empty-string URL becomes a NULL `pic_url`. -/
def urlStringPtr (u : Option String) : Option String :=
  match u with
  | none => none
  | some s => if s = "" then none else some s

/-- The `ON CONFLICT (account_id, user_id)` key matcher of the upsert
statement. -/
def rowMatches (accID uid : Int) (r : UserRow) : Bool :=
  r.accountID = accID && r.userID = uid

/-- One execution of the upsert statement of `StoreCopyJobResults`
(database/worker.go lines 104-109): insert with `first_seen = NOW()`
on first sight, else refresh `last_seen`, `handler` and `pic_url` of the
conflicting row.  `(account_id, user_id)` is the table's unique key, so
at most one row conflicts; the first matching row is the one updated. -/
def upsertUser (now accID : Int) (u : IGUser) : List UserRow → List UserRow
  | [] => [{ accountID := accID, userID := u.id, firstSeen := now, lastSeen := now,
             handler := u.handler, picURL := urlStringPtr u.pictureURL }]
  | r :: rest =>
    if rowMatches accID u.id r then
      { r with lastSeen := now, handler := u.handler, picURL := urlStringPtr u.pictureURL } :: rest
    else
      r :: upsertUser now accID u rest

/-- Failure oracles for one `StoreCopyJobResults` call: `execFail i` is
the outcome of the `i`-th user-upsert `Execute`, `cursorFail` that of
the cursor-update `Execute`. -/
structure StoreEnv where
  execFail : Nat → Option String
  cursorFail : Option String

/-- The `for _, u := range results.Users` loop of `StoreCopyJobResults`:
upserts users in order, stopping at the first failing `Execute` with the
table as mutated so far. -/
def upsertLoop (env : StoreEnv) (now accID : Int) :
    Nat → List IGUser → List UserRow → List UserRow × Option String
  | _, [], tbl => (tbl, none)
  | i, u :: rest, tbl =>
    match env.execFail i with
    | some e => (tbl, some e)
    | none => upsertLoop env now accID (i + 1) rest (upsertUser now accID u tbl)

/-- The cursor-update statement of `StoreCopyJobResults` (database/
worker.go lines 119-137): `jsonb_set(metadata, '\x7bcursor\x7d', ...)`
together with `state = 'active'` on the job's row.  `c = none` is the
`'null'::jsonb` variant used when `results.Next == nil`. -/
def setJobCursor (jobID : Int) (c : Option String) (jobs : List JobsRow) : List JobsRow :=
  jobs.map fun r =>
    if r.id = jobID then
      { r with metadata := { r.metadata with cursor := c }, state := JobStateActive }
    else r

/-- `Database.StoreCopyJobResults` (database/worker.go lines 98-138).
Chooses the table from the job's type, upserts every user of the page,
then updates the job's stored cursor (cleared when `results.Next` is
nil, set to the cursor string otherwise — including the empty string)
and sets the job `active`.  Returns the database state as mutated by the
successful statements, plus the error of the first failing one. -/
def storeCopyJobResults (env : StoreEnv) (now : Int) (job : CopyJob)
    (results : Connections) (db : DBState) : DBState × Option String :=
  let isFollowing := job.job.jobType = JobTypeCopyFollowing
  let tbl0 := if isFollowing then db.following else db.followers
  let up := upsertLoop env now job.metadata.userID 0 results.users tbl0
  let db1 := if isFollowing then { db with following := up.1 } else { db with followers := up.1 }
  match up.2 with
  | some e => (db1, some e)
  | none =>
    match env.cursorFail with
    | some e => (db1, some e)
    | none => ({ db1 with jobs := setJobCursor job.job.id results.next db1.jobs }, none)

/-- First row of the table matching the `(account_id, user_id)` key:
the row the upsert statement's conflict target addresses. -/
def rowFor (accID uid : Int) (tbl : List UserRow) : Option UserRow :=
  tbl.find? (rowMatches accID uid)

/-! ### database/worker.go: `NextJob`, and `Worker.NextCopyJob` -/

/-- The `WHERE` clause of `NextJob` (database/worker.go lines 44-78):
matching type, non-null `next_run` in the past, state `active` or
`new`. -/
def eligibleJob (jobType : String) (now : Int) (j : MJob) : Bool :=
  j.jobType = jobType &&
  (match j.nextRun with
   | some t => t < now
   | none => false) &&
  (j.state = JobStateActive || j.state = JobStateNew)

/-- `ORDER BY next_run ASC LIMIT 1` over the filtered rows: the row with
the smallest `next_run` (first such row on ties). -/
def earliestJob : List MJob → Option MJob
  | [] => none
  | j :: rest =>
    match earliestJob rest with
    | none => some j
    | some b => if j.nextRun.getD 0 ≤ b.nextRun.getD 0 then some j else some b

/-- `Database.NextJob`: the first job of the given type ready for
execution, or none. -/
def dbNextJob (jobType : String) (now : Int) (jobs : List MJob) : Option MJob :=
  earliestJob (jobs.filter (eligibleJob jobType now))

/-- The `models.NewCopyJob(j)` step of `NextCopyJob`, lifted to the
optional result. -/
def convertJob (j : MJob) : GoResult (Option CopyJob) :=
  match newCopyJob j with
  | .ok cj => .ok (some cj)
  | .err e => .err e
  | .crash => .crash

/-- `Worker.NextCopyJob` (worker.go lines 114-137): asks the store for
the next eligible `copy-followers` job and, only when none exists, for
the next eligible `copy-following` job; converts the claimed job with
`NewCopyJob`. -/
def nextCopyJob (now : Int) (jobs : List MJob) : GoResult (Option CopyJob) :=
  match dbNextJob JobTypeCopyFollowers now jobs with
  | some j => convertJob j
  | none =>
    match dbNextJob JobTypeCopyFollowing now jobs with
    | some j => convertJob j
    | none => .ok none

/-! ### Derived forms used to state properties -/

/-- The user-upsert phase of `StoreCopyJobResults` when every `Execute`
succeeds: upsert the page's users left to right. -/
def processUsers (now accID : Int) : List IGUser → List UserRow → List UserRow
  | [], tbl => tbl
  | u :: rest, tbl => processUsers now accID rest (upsertUser now accID u tbl)

/-- The last user of the page carrying the given user id: the writer
whose values the upsert sequence leaves in that user's row. -/
def lastWrite (uid : Int) : List IGUser → Option IGUser
  | [] => none
  | u :: rest =>
    match lastWrite uid rest with
    | some w => some w
    | none => if u.id = uid then some u else none

/-- A run attempt that succeeds and keeps the loop going: the fetch
returns a page whose `next` cursor is neither absent nor empty, and the
page persists without error. -/
def goodStep (env : RunEnv) (i : Nat) : Prop :=
  ∃ p, env.fetch i = .ok p ∧ env.storeErr i = none ∧ p.next ≠ none ∧ p.next ≠ some ""

/-- The direction-specific table chosen by `StoreCopyJobResults`
(database/worker.go lines 99-102): `user_following` for a
`copy-following` job, `user_followers` otherwise. -/
def dirTable (job : CopyJob) (db : DBState) : List UserRow :=
  if job.job.jobType = JobTypeCopyFollowing then db.following else db.followers

/-! ### Concrete fixtures -/

/-- A `copy-following` job as the worker holds it in memory. -/
def followingJob : CopyJob :=
  { job := { binData := .ok (some { cursor := none, frequency := "daily", userID := 7 }),
             id := 9, checksum := "copy-following:7", jobType := JobTypeCopyFollowing,
             label := "sync", lastRun := none, nextRun := some 0, state := JobStateActive },
    metadata := { cursor := none, frequency := "daily", userID := 7 } }

/-- A `copy-followers` job as the worker holds it in memory. -/
def followersJob : CopyJob :=
  { job := { binData := .ok (some { cursor := none, frequency := "daily", userID := 7 }),
             id := 3, checksum := "copy-followers:7", jobType := JobTypeCopyFollowers,
             label := "sync", lastRun := none, nextRun := some 0, state := JobStateActive },
    metadata := { cursor := none, frequency := "daily", userID := 7 } }

def aUser : IGUser :=
  { fullName := "John Doe", handler := "johndoe", id := 100, pictureURL := none }

/-- A jobs-table row for `followingJob`, currently paused, with a stored
cursor. -/
def followingRow : JobsRow :=
  { id := 9, checksum := "copy-following:7", jobType := JobTypeCopyFollowing,
    label := "sync", lastRun := none, nextRun := some 0, state := JobStatePaused,
    metadata := { cursor := some "x", frequency := "daily", userID := 7 } }

def sampleDB : DBState :=
  { followers := [], following := [], jobs := [followingRow] }

/-- Store oracles with every statement succeeding. -/
def storeEnvOK : StoreEnv :=
  { execFail := fun _ => none, cursorFail := none }

/-- Proxy answering a single exhausted page (one user, no next cursor);
all database calls succeed. -/
def envOnePage : RunEnv :=
  { fetch := fun _ => .ok { next := none, users := [aUser] },
    storeErr := fun _ => none, r := 0, scheduleErr := none }

/-- Proxy answering an endless sequence of pages, each with a further
next cursor; all database calls succeed. -/
def envManyPages : RunEnv :=
  { fetch := fun a => .ok { next := some ("cur" ++ toString a), users := [aUser] },
    storeErr := fun _ => none, r := 0, scheduleErr := none }

/-- Proxy failing immediately; all database calls succeed. -/
def envFetchFail : RunEnv :=
  { fetch := fun _ => .error "boom",
    storeErr := fun _ => none, r := 0, scheduleErr := none }

/-- Proxy answering pages, but the first `StoreCopyJobResults` call
fails. -/
def envStoreFail : RunEnv :=
  { fetch := fun _ => .ok { next := some "cur", users := [aUser] },
    storeErr := fun _ => some "db down", r := 0, scheduleErr := none }

/-- A copy-typed `jobs` row whose metadata payload is the JSON literal
`null` (which decodes into a nil `*CopyJobMetadata` without error). -/
def nullMetaJob : MJob :=
  { binData := .ok none, id := 4, checksum := "copy-followers:2",
    jobType := JobTypeCopyFollowers, label := "sync", lastRun := none,
    nextRun := some 0, state := JobStateNew }

/-- A copy-typed `jobs` row whose stored metadata cursor is the empty
string. -/
def emptyCursorJob : MJob :=
  { binData := .ok (some { cursor := some "", frequency := "daily", userID := 7 }),
    id := 5, checksum := "copy-followers:7", jobType := JobTypeCopyFollowers,
    label := "sync", lastRun := none, nextRun := some 0, state := JobStateActive }

/-- Proxy answering a page whose next cursor is the empty string; all
database calls succeed. -/
def envEmptyNext : RunEnv :=
  { fetch := fun _ => .ok { next := some "", users := [] },
    storeErr := fun _ => none, r := 0, scheduleErr := none }

/-- Store oracles whose first user-upsert `Execute` fails. -/
def storeEnvFail : StoreEnv :=
  { execFail := fun _ => some "insert failed", cursorFail := none }

/-! ## Theorems -/

/-! ### Helper lemmas about the attempt loop -/

@[simp] theorem scheduleDelays_nil : scheduleDelays [] = [] := rfl

@[simp] theorem scheduleDelays_cons_fetch (d : String) (u : Int) (c : Option String)
    (tr : List Eff) : scheduleDelays (.fetch d u c :: tr) = scheduleDelays tr := rfl

@[simp] theorem scheduleDelays_cons_event (i : Int) (m : String) (tr : List Eff) :
    scheduleDelays (.event i m :: tr) = scheduleDelays tr := rfl

@[simp] theorem scheduleDelays_cons_progress (i : Int) (n : Nat) (c : Option String)
    (tr : List Eff) : scheduleDelays (.progressEvent i n c :: tr) = scheduleDelays tr := rfl

@[simp] theorem scheduleDelays_cons_mark (i : Int) (tr : List Eff) :
    scheduleDelays (.markError i :: tr) = scheduleDelays tr := rfl

@[simp] theorem scheduleDelays_cons_store (i : Int) (p : Connections) (tr : List Eff) :
    scheduleDelays (.store i p :: tr) = scheduleDelays tr := rfl

@[simp] theorem scheduleDelays_cons_sleep (ns : Int) (tr : List Eff) :
    scheduleDelays (.sleep ns :: tr) = scheduleDelays tr := rfl

@[simp] theorem scheduleDelays_cons_schedule (i d : Int) (tr : List Eff) :
    scheduleDelays (.schedule i d :: tr) = d :: scheduleDelays tr := rfl

@[simp] theorem scheduleDelays_append (l1 l2 : List Eff) :
    scheduleDelays (l1 ++ l2) = scheduleDelays l1 ++ scheduleDelays l2 := by
  simp [scheduleDelays, List.filterMap_append]

/-- The attempt loop itself never calls `ScheduleJob`. -/
theorem copyLoop_schedules_nil (env : RunEnv) (cj : CopyJob) :
    ∀ n a cursor, scheduleDelays (copyLoop env cj n a cursor).2 = [] := by
  intro n
  induction n with
  | zero => intro a cursor; simp [copyLoop]
  | succ n ih =>
    intro a cursor
    cases hf : env.fetch a with
    | error e => simp [copyLoop, hf]
    | ok res =>
      cases hs : env.storeErr a with
      | some e => simp [copyLoop, hf, hs]
      | none =>
        by_cases hd : res.next = none ∨ res.next = some ""
        · simp [copyLoop, hf, hs, hd]
        · simp only [copyLoop, hf, hs, if_neg hd]
          split <;> simpa using ih (a + 1) res.next

/-- If the fetch of attempt `k` fails and every earlier attempt of the
run made progress, the loop aborts with the fetch error joined with
`ErrNoRetry`, after marking the job `error` and appending the error text
as an audit event — and these two store writes are the last effects of
the loop. -/
theorem copyLoop_fetch_error (env : RunEnv) (cj : CopyJob) (k : Nat) (e : String)
    (hke : env.fetch k = .error e) :
    ∀ n a cursor, a + n = attempts → a ≤ k → k < attempts →
    (∀ i, a ≤ i → i < k → goodStep env i) →
    ∃ pre, copyLoop env cj n a cursor =
      (.error (.noRetry e), pre ++ [.markError cj.job.id, .event cj.job.id e]) := by
  intro n
  induction n with
  | zero =>
    intro a cursor hsum hak hk _
    omega
  | succ n ih =>
    intro a cursor hsum hak hk hgood
    rcases Nat.eq_or_lt_of_le hak with hak' | hak'
    · subst hak'
      refine ⟨[.fetch "followers" cj.metadata.userID cursor], ?_⟩
      simp [copyLoop, hke]
    · obtain ⟨p, hp, hst, hn1, hn2⟩ := hgood a le_rfl hak'
      have ha : a ≠ attempts := by omega
      obtain ⟨pre, hpre⟩ :=
        ih (a + 1) p.next (by omega) (by omega) hk
          (fun i hi1 hi2 => hgood i (by omega) hi2)
      refine ⟨[.fetch "followers" cj.metadata.userID cursor, .store cj.job.id p,
               .progressEvent cj.job.id p.users.length p.next,
               .sleep (pauseBetweenAttempts * secondNs)] ++ pre, ?_⟩
      have hd : ¬(p.next = none ∨ p.next = some "") := by
        intro h; rcases h with h | h
        · exact hn1 h
        · exact hn2 h
      simp [copyLoop, hp, hst, hd, ha, hpre]

/-- If the page persisted at attempt `k` fails to store and every
earlier attempt made progress, the loop aborts with the store error
wrapped as a database failure; the failed `StoreCopyJobResults` call is
the last effect of the loop. -/
theorem copyLoop_store_error (env : RunEnv) (cj : CopyJob) (k : Nat) (e : String)
    (p : Connections) (hfk : env.fetch k = .ok p) (hse : env.storeErr k = some e) :
    ∀ n a cursor, a + n = attempts → a ≤ k → k < attempts →
    (∀ i, a ≤ i → i < k → goodStep env i) →
    ∃ pre, copyLoop env cj n a cursor =
      (.error (.dbFailure e), pre ++ [.store cj.job.id p]) := by
  intro n
  induction n with
  | zero =>
    intro a cursor hsum hak hk _
    omega
  | succ n ih =>
    intro a cursor hsum hak hk hgood
    rcases Nat.eq_or_lt_of_le hak with hak' | hak'
    · subst hak'
      refine ⟨[.fetch "followers" cj.metadata.userID cursor], ?_⟩
      simp [copyLoop, hfk, hse]
    · obtain ⟨q, hq, hst, hn1, hn2⟩ := hgood a le_rfl hak'
      have ha : a ≠ attempts := by omega
      obtain ⟨pre, hpre⟩ :=
        ih (a + 1) q.next (by omega) (by omega) hk
          (fun i hi1 hi2 => hgood i (by omega) hi2)
      refine ⟨[.fetch "followers" cj.metadata.userID cursor, .store cj.job.id q,
               .progressEvent cj.job.id q.users.length q.next,
               .sleep (pauseBetweenAttempts * secondNs)] ++ pre, ?_⟩
      have hd : ¬(q.next = none ∨ q.next = some "") := by
        intro h; rcases h with h | h
        · exact hn1 h
        · exact hn2 h
      simp [copyLoop, hq, hst, hd, ha, hpre]

/-- The row selected by `ORDER BY next_run ASC LIMIT 1` is one of the
filtered rows. -/
theorem earliestJob_mem : ∀ (l : List MJob) (j : MJob), earliestJob l = some j → j ∈ l := by
  intro l
  induction l with
  | nil => intro j h; simp [earliestJob] at h
  | cons x xs ih =>
    intro j h
    simp only [earliestJob] at h
    split at h
    · simp at h; simp [h]
    · rename_i b he
      split at h
      · simp at h; simp [h]
      · simp at h
        subst h
        exact List.mem_cons_of_mem x (ih b he)

/-- A nonempty candidate list yields a selected row. -/
theorem earliestJob_isSome : ∀ (l : List MJob), l ≠ [] → ∃ j, earliestJob l = some j := by
  intro l
  cases l with
  | nil => intro h; exact absurd rfl h
  | cons x xs =>
    intro _
    simp only [earliestJob]
    split
    · exact ⟨x, rfl⟩
    · split
      · exact ⟨x, rfl⟩
      · exact ⟨_, rfl⟩

theorem normalizeMeta_userID (m0 : CopyJobMetadata) :
    (normalizeMeta m0).userID = m0.userID := by
  by_cases hc : m0.cursor = some "" <;> by_cases hv : IsValidJobFrequency m0.frequency <;>
    simp [normalizeMeta, hc, hv]

theorem normalizeMeta_frequency (m0 : CopyJobMetadata) :
    (normalizeMeta m0).frequency = JobFrequencyDaily ∨
    (normalizeMeta m0).frequency = JobFrequencyWeekly := by
  by_cases hc : m0.cursor = some "" <;> by_cases hv : IsValidJobFrequency m0.frequency <;>
    simp only [normalizeMeta, hc, hv, if_pos, if_neg, if_true, if_false] <;>
    simp_all [IsValidJobFrequency]

theorem normalizeMeta_cursor (m0 : CopyJobMetadata) :
    (normalizeMeta m0).cursor ≠ some "" := by
  by_cases hc : m0.cursor = some "" <;> by_cases hv : IsValidJobFrequency m0.frequency <;>
    simp [normalizeMeta, hc, hv]

/-- What `NewCopyJob` guarantees about a successfully converted job:
the original job is kept, the user id is positive, the frequency is
normalized to `daily`/`weekly` and the cursor is never a pointer to the
empty string. -/
theorem newCopyJob_ok_invariants (j : MJob) (cj : CopyJob)
    (h : newCopyJob j = .ok cj) :
    cj.job = j ∧ 1 ≤ cj.metadata.userID ∧
    (cj.metadata.frequency = JobFrequencyDaily ∨ cj.metadata.frequency = JobFrequencyWeekly) ∧
    cj.metadata.cursor ≠ some "" := by
  simp only [newCopyJob] at h
  split at h
  · simp at h
  · split at h
    · simp at h
    · simp at h
    · rename_i x0 m0 hbin
      split at h
      · simp at h
      · rename_i huid
        simp only [GoResult.ok.injEq] at h
        subst h
        exact ⟨rfl, by have := normalizeMeta_userID m0; dsimp at *; omega,
               normalizeMeta_frequency m0, normalizeMeta_cursor m0⟩

/-- A successful `NewCopyJob` call returns the normalization of the
decoded metadata object. -/
theorem newCopyJob_ok_metadata (j : MJob) (cj : CopyJob)
    (h : newCopyJob j = .ok cj) :
    ∃ m0, j.binData = .ok (some m0) ∧ cj.metadata = normalizeMeta m0 := by
  simp only [newCopyJob] at h
  split at h
  · simp at h
  · split at h
    · simp at h
    · simp at h
    · rename_i x0 m0 hbin
      split at h
      · simp at h
      · simp only [GoResult.ok.injEq] at h
        subst h
        exact ⟨m0, hbin, rfl⟩

theorem normalizeMeta_cursor_empty (m0 : CopyJobMetadata) (h : m0.cursor = some "") :
    (normalizeMeta m0).cursor = none := by
  by_cases hv : IsValidJobFrequency m0.frequency <;> simp [normalizeMeta, h, hv]

/-! ### Helper lemmas about the store -/

/-- With every upsert `Execute` succeeding, the upsert loop is the plain
left fold of `upsertUser` over the page. -/
theorem upsertLoop_ok (env : StoreEnv) (now accID : Int)
    (hex : ∀ i, env.execFail i = none) :
    ∀ (us : List IGUser) (i : Nat) (tbl : List UserRow),
      upsertLoop env now accID i us tbl = (processUsers now accID us tbl, none) := by
  intro us
  induction us with
  | nil => intro i tbl; simp [upsertLoop, processUsers]
  | cons u rest ih =>
    intro i tbl
    simp [upsertLoop, hex i, processUsers, ih]

theorem setJobCursor_fields (jobID : Int) (c : Option String) (jobs : List JobsRow) :
    ∀ r' ∈ setJobCursor jobID c jobs, r'.id = jobID →
      r'.metadata.cursor = c ∧ r'.state = JobStateActive := by
  intro r' hr' hid
  simp only [setJobCursor, List.mem_map] at hr'
  obtain ⟨r, _, hfr⟩ := hr'
  by_cases h : r.id = jobID
  · rw [if_pos h] at hfr
    subst hfr
    exact ⟨rfl, rfl⟩
  · rw [if_neg h] at hfr
    subst hfr
    exact absurd hid h

/-- Updating the stored cursor to the same value twice is the same as
doing it once. -/
theorem setJobCursor_idem (jobID : Int) (c : Option String) (jobs : List JobsRow) :
    setJobCursor jobID c (setJobCursor jobID c jobs) = setJobCursor jobID c jobs := by
  induction jobs with
  | nil => rfl
  | cons r rest ih =>
    by_cases h : r.id = jobID <;>
      simp [setJobCursor, h] <;>
      simpa [setJobCursor] using ih

/-- The jobs table after `StoreCopyJobResults`: updated through
`setJobCursor` on success, untouched on any failure. -/
theorem storeCopyJobResults_jobs (env : StoreEnv) (now : Int) (job : CopyJob)
    (results : Connections) (db : DBState) :
    ((storeCopyJobResults env now job results db).2 = none →
      (storeCopyJobResults env now job results db).1.jobs =
        setJobCursor job.job.id results.next db.jobs) ∧
    (∀ e, (storeCopyJobResults env now job results db).2 = some e →
      (storeCopyJobResults env now job results db).1.jobs = db.jobs) := by
  by_cases hF : job.job.jobType = JobTypeCopyFollowing
  · simp only [storeCopyJobResults, hF, eq_self_iff_true, if_true, ite_true]
    rcases hu2 : (upsertLoop env now job.metadata.userID 0 results.users db.following).2
      with _ | e0
    · cases hcf : env.cursorFail with
      | none =>
        refine ⟨fun _ => ?_, fun e he => ?_⟩
        · simp [hu2, hcf]
        · simp [hu2, hcf] at he
      | some e1 =>
        refine ⟨fun hok => ?_, fun e he => ?_⟩
        · simp [hu2, hcf] at hok
        · simp [hu2, hcf]
    · refine ⟨fun hok => ?_, fun e he => ?_⟩
      · simp [hu2] at hok
      · simp [hu2]
  · simp only [storeCopyJobResults, hF, if_false, ite_false]
    rcases hu2 : (upsertLoop env now job.metadata.userID 0 results.users db.followers).2
      with _ | e0
    · cases hcf : env.cursorFail with
      | none =>
        refine ⟨fun _ => ?_, fun e he => ?_⟩
        · simp [hu2, hcf]
        · simp [hu2, hcf] at he
      | some e1 =>
        refine ⟨fun hok => ?_, fun e he => ?_⟩
        · simp [hu2, hcf] at hok
        · simp [hu2, hcf]
    · refine ⟨fun hok => ?_, fun e he => ?_⟩
      · simp [hu2] at hok
      · simp [hu2]

/-- With every `Execute` succeeding, `StoreCopyJobResults` reports no
error, folds the page's users into the direction-specific table, and
sets the job's cursor/state; the other direction's table is untouched. -/
theorem storeCopyJobResults_ok_state (env : StoreEnv) (now : Int) (job : CopyJob)
    (results : Connections) (db : DBState)
    (hex : ∀ i, env.execFail i = none) (hcf : env.cursorFail = none) :
    (storeCopyJobResults env now job results db).2 = none ∧
    (storeCopyJobResults env now job results db).1 =
      (if job.job.jobType = JobTypeCopyFollowing then
        { followers := db.followers,
          following := processUsers now job.metadata.userID results.users db.following,
          jobs := setJobCursor job.job.id results.next db.jobs }
      else
        { followers := processUsers now job.metadata.userID results.users db.followers,
          following := db.following,
          jobs := setJobCursor job.job.id results.next db.jobs }) := by
  by_cases hF : job.job.jobType = JobTypeCopyFollowing <;>
    simp [storeCopyJobResults, hF, hcf, upsertLoop_ok env now job.metadata.userID hex]

/-- How one upsert statement changes the row a key addresses: the
conflicting key gets the refreshed row (keeping its `first_seen` when it
already existed), every other key is untouched. -/
theorem rowFor_upsert (now accID : Int) (u : IGUser) (uid : Int) :
    ∀ tbl, rowFor accID uid (upsertUser now accID u tbl) =
      if u.id = uid then
        some { accountID := accID, userID := u.id,
               firstSeen := ((rowFor accID uid tbl).map UserRow.firstSeen).getD now,
               lastSeen := now, handler := u.handler, picURL := urlStringPtr u.pictureURL }
      else rowFor accID uid tbl := by
  intro tbl
  induction tbl with
  | nil =>
    by_cases hid : u.id = uid <;>
      simp [upsertUser, rowFor, List.find?, rowMatches, hid]
  | cons r rest ih =>
    by_cases hm : rowMatches accID u.id r = true
    · have hupd : upsertUser now accID u (r :: rest) =
          { r with lastSeen := now, handler := u.handler,
                   picURL := urlStringPtr u.pictureURL } :: rest := by
        simp [upsertUser, hm]
      rw [hupd]
      have hm' := hm
      simp only [rowMatches, Bool.and_eq_true, decide_eq_true_eq] at hm'
      obtain ⟨hacc, huid⟩ := hm'
      by_cases hid : u.id = uid
      · have hmu : rowMatches accID uid
            { r with lastSeen := now, handler := u.handler,
                     picURL := urlStringPtr u.pictureURL } = true := by
          simp [rowMatches, hacc, huid, hid]
        have hmr : rowMatches accID uid r = true := by
          simp [rowMatches, hacc, huid, hid]
        rw [if_pos hid]
        simp only [rowFor, List.find?_cons_of_pos _ hmu, List.find?_cons_of_pos _ hmr]
        simp [hacc, huid]
      · have hmu : rowMatches accID uid
            { r with lastSeen := now, handler := u.handler,
                     picURL := urlStringPtr u.pictureURL } = false := by
          simp [rowMatches, huid, hid]
        have hmr : rowMatches accID uid r = false := by
          simp [rowMatches, huid, hid]
        rw [if_neg hid]
        simp only [rowFor] at *
        rw [List.find?_cons_of_neg _ (by simp [hmu]), List.find?_cons_of_neg _ (by simp [hmr])]
    · have hupd : upsertUser now accID u (r :: rest) = r :: upsertUser now accID u rest := by
        simp [upsertUser, hm]
      rw [hupd]
      by_cases hmr : rowMatches accID uid r = true
      · have hr' : r.accountID = accID ∧ r.userID = uid := by
          simpa [rowMatches, Bool.and_eq_true, decide_eq_true_eq] using hmr
        have hid : ¬(u.id = uid) := by
          intro h
          exact hm (by simp [rowMatches, hr'.1, hr'.2, h])
        rw [if_neg hid]
        simp only [rowFor]
        rw [List.find?_cons_of_pos _ hmr, List.find?_cons_of_pos _ hmr]
      · simp only [rowFor] at *
        rw [List.find?_cons_of_neg _ (by simp [hmr])]
        rw [show List.find? (rowMatches accID uid) (r :: rest) =
              List.find? (rowMatches accID uid) rest from
            List.find?_cons_of_neg _ (by simp [hmr])] at *
        exact ih

/-- What a sequence of upserts leaves at each key: nothing for keys the
page does not carry; for a carried key, the last writer's values with
`last_seen = NOW()` and the pre-existing `first_seen` (or `NOW()` on
first sight). -/
theorem rowFor_processUsers (now accID uid : Int) :
    ∀ (us : List IGUser) (tbl : List UserRow),
      rowFor accID uid (processUsers now accID us tbl) =
        match lastWrite uid us with
        | none => rowFor accID uid tbl
        | some w =>
          some { accountID := accID, userID := uid,
                 firstSeen := ((rowFor accID uid tbl).map UserRow.firstSeen).getD now,
                 lastSeen := now, handler := w.handler,
                 picURL := urlStringPtr w.pictureURL } := by
  intro us
  induction us with
  | nil => intro tbl; simp [processUsers, lastWrite]
  | cons u rest ih =>
    intro tbl
    simp only [processUsers]
    rw [ih (upsertUser now accID u tbl)]
    cases hlw : lastWrite uid rest with
    | some w =>
      simp only [lastWrite, hlw]
      rw [rowFor_upsert]
      by_cases hid : u.id = uid
      · rw [if_pos hid]; simp
      · rw [if_neg hid]
    | none =>
      simp only [lastWrite, hlw]
      rw [rowFor_upsert]
      by_cases hid : u.id = uid
      · rw [if_pos hid]; simp [hid]
      · rw [if_neg hid]; simp [hid]

/-- Claim C2: when the fetcher errors on some attempt (after any number
of earlier attempts that made progress), `RunCopyJob` marks the job
`error`, appends the error text as an audit event — and these are the
last store operations of the run (no cursor update and no `next_run`
update follows) — never calls `ScheduleJob`, and returns the fetch
error wrapped as non-retryable.  Moreover `NextJob`
(claimNextEligibleJob) only ever returns jobs whose state is `active`
or `new`, so an `error`-state job is never claimed again. -/
theorem runCopyJob_fetch_error_behaviour :
    (∀ (env : RunEnv) (cj : CopyJob) (k : Nat) (e : String),
      k < attempts → env.fetch k = .error e → (∀ i, i < k → goodStep env i) →
      (runCopyJob env cj).1 = .error (.noRetry e) ∧
      (∃ pre, (runCopyJob env cj).2 =
        pre ++ [.markError cj.job.id, .event cj.job.id e]) ∧
      scheduleDelays (runCopyJob env cj).2 = []) ∧
    (∀ (t : String) (now : Int) (jobs : List MJob) (j : MJob),
      dbNextJob t now jobs = some j →
      j.state ≠ JobStateError ∧ (j.state = JobStateActive ∨ j.state = JobStateNew)) := by
  constructor
  · intro env cj k e hk hke hgood
    obtain ⟨pre, hpre⟩ :=
      copyLoop_fetch_error env cj k e hke attempts 0 cj.metadata.cursor
        (Nat.zero_add attempts) (Nat.zero_le k) hk
        (fun i _ hik => hgood i hik)
    have hsch := copyLoop_schedules_nil env cj attempts 0 cj.metadata.cursor
    rw [hpre] at hsch
    refine ⟨?_, ⟨.event cj.job.id "job picked up for execution" :: pre, ?_⟩, ?_⟩
    · simp [runCopyJob, hpre]
    · simp [runCopyJob, hpre]
    · simp only [runCopyJob, hpre]
      simpa using hsch
  · intro t now jobs j hj
    have hmem : j ∈ jobs.filter (eligibleJob t now) := earliestJob_mem _ _ hj
    have helig : eligibleJob t now j = true := (List.mem_filter.mp hmem).2
    simp only [eligibleJob, Bool.and_eq_true, Bool.or_eq_true, decide_eq_true_eq] at helig
    rcases helig.2 with hs | hs <;>
      simp [hs, JobStateActive, JobStateNew, JobStateError]

/-- Witness for `runCopyJob_fetch_error_behaviour`: a concrete run whose
first fetch fails, and a concrete one-job store. -/
theorem runCopyJob_fetch_error_behaviour_w :
    ((runCopyJob envFetchFail followersJob).1 = .error (.noRetry "boom") ∧
      (∃ pre, (runCopyJob envFetchFail followersJob).2 =
        pre ++ [.markError followersJob.job.id, .event followersJob.job.id "boom"]) ∧
      scheduleDelays (runCopyJob envFetchFail followersJob).2 = []) ∧
    (followersJob.job.state ≠ JobStateError ∧
      (followersJob.job.state = JobStateActive ∨ followersJob.job.state = JobStateNew)) :=
  ⟨runCopyJob_fetch_error_behaviour.1 envFetchFail followersJob 0 "boom" (by decide) rfl
      (fun i hi => absurd hi (Nat.not_lt_zero i)),
   runCopyJob_fetch_error_behaviour.2 JobTypeCopyFollowers 10 [followersJob.job]
      followersJob.job (by decide)⟩

/-- Claim C3: a run that completes a full sync (the attempt loop ends
with `done = true`, i.e. the final page's cursor was absent or empty)
passes exactly one delay to `ScheduleJob`: 24 hours when the job's
frequency is `daily` and 7×24 hours when it is `weekly`; and a job
loaded through `NewCopyJob` always has one of these two frequencies, so
no other delay can be scheduled for a completed sync. -/
theorem runCopyJob_completed_sync_delay (env : RunEnv) (j : MJob) (cj : CopyJob)
    (hload : newCopyJob j = .ok cj)
    (hdone : (copyLoop env cj attempts 0 cj.metadata.cursor).1 = .ok true) :
    (cj.metadata.frequency = JobFrequencyDaily →
      scheduleDelays (runCopyJob env cj).2 = [hourNs * 24]) ∧
    (cj.metadata.frequency = JobFrequencyWeekly →
      scheduleDelays (runCopyJob env cj).2 = [hourNs * 24 * 7]) ∧
    (cj.metadata.frequency = JobFrequencyDaily ∨
      cj.metadata.frequency = JobFrequencyWeekly) := by
  have hfreq := (newCopyJob_ok_invariants j cj hload).2.2.1
  have hnil := copyLoop_schedules_nil env cj attempts 0 cj.metadata.cursor
  rcases hc : copyLoop env cj attempts 0 cj.metadata.cursor with ⟨res, tr⟩
  rw [hc] at hdone hnil
  dsimp at hdone hnil
  subst hdone
  refine ⟨?_, ?_, hfreq⟩
  · intro hd
    cases hse : env.scheduleErr <;>
      simp [runCopyJob, hc, hse, hd, hnil]
  · intro hw
    cases hse : env.scheduleErr <;>
      simp [runCopyJob, hc, hse, hw, hnil, JobFrequencyDaily, JobFrequencyWeekly]

/-- Witness for `runCopyJob_completed_sync_delay`: a concrete daily job
whose single page completes the sync. -/
theorem runCopyJob_completed_sync_delay_w :
    (followersJob.metadata.frequency = JobFrequencyDaily →
      scheduleDelays (runCopyJob envOnePage followersJob).2 = [hourNs * 24]) ∧
    (followersJob.metadata.frequency = JobFrequencyWeekly →
      scheduleDelays (runCopyJob envOnePage followersJob).2 = [hourNs * 24 * 7]) ∧
    (followersJob.metadata.frequency = JobFrequencyDaily ∨
      followersJob.metadata.frequency = JobFrequencyWeekly) :=
  runCopyJob_completed_sync_delay envOnePage followersJob.job followersJob
    (by decide) (by decide)

/-- Claim C4: a run that exhausts the attempt budget without completing
(the loop returns `done = false`) schedules exactly one delay,
`time.Minute * randDuration(20, 30)`; with the `rand.IntN` draw in its
range `[0, 30-20)`, that delay lies in the interval [20, 30] minutes. -/
theorem runCopyJob_incomplete_delay_range (env : RunEnv) (cj : CopyJob)
    (hnd : (copyLoop env cj attempts 0 cj.metadata.cursor).1 = .ok false)
    (hr0 : 0 ≤ env.r) (hr1 : env.r < 30 - 20) :
    ∃ d, scheduleDelays (runCopyJob env cj).2 = [d] ∧
      minuteNs * 20 ≤ d ∧ d ≤ minuteNs * 30 := by
  have hnil := copyLoop_schedules_nil env cj attempts 0 cj.metadata.cursor
  rcases hc : copyLoop env cj attempts 0 cj.metadata.cursor with ⟨res, tr⟩
  rw [hc] at hnd hnil
  dsimp at hnd hnil
  subst hnd
  refine ⟨minuteNs * randDuration 20 30 env.r, ?_, ?_, ?_⟩
  · cases hse : env.scheduleErr <;>
      simp [runCopyJob, hc, hse, hnil]
  · simp only [minuteNs, secondNs, randDuration]
    omega
  · simp only [minuteNs, secondNs, randDuration]
    omega

/-- Witness for `runCopyJob_incomplete_delay_range`: a concrete run with
endless pages and random draw 0. -/
theorem runCopyJob_incomplete_delay_range_w :
    ∃ d, scheduleDelays (runCopyJob envManyPages followersJob).2 = [d] ∧
      minuteNs * 20 ≤ d ∧ d ≤ minuteNs * 30 :=
  runCopyJob_incomplete_delay_range envManyPages followersJob
    (by decide) (by decide) (by decide)

/-- Claim C7: whenever an eligible `copy-followers` job exists,
`NextCopyJob` claims a `copy-followers` job: the store is asked for
`copy-followers` first, and the `copy-following` query result is never
consulted.  In particular, with one eligible job of each type, the
`copy-followers` one is selected. -/
theorem nextCopyJob_prefers_followers (now : Int) (jobs : List MJob) (jf : MJob)
    (hmem : jf ∈ jobs) (helig : eligibleJob JobTypeCopyFollowers now jf = true) :
    ∃ j', dbNextJob JobTypeCopyFollowers now jobs = some j' ∧
      j'.jobType = JobTypeCopyFollowers ∧
      nextCopyJob now jobs = convertJob j' := by
  have hne : jobs.filter (eligibleJob JobTypeCopyFollowers now) ≠ [] := by
    intro h0
    have hin : jf ∈ jobs.filter (eligibleJob JobTypeCopyFollowers now) :=
      List.mem_filter.mpr ⟨hmem, helig⟩
    rw [h0] at hin
    exact absurd hin (List.not_mem_nil jf)
  obtain ⟨j', hj'⟩ := earliestJob_isSome _ hne
  have hdb : dbNextJob JobTypeCopyFollowers now jobs = some j' := hj'
  have hmem' := earliestJob_mem _ _ hj'
  have htype : j'.jobType = JobTypeCopyFollowers := by
    have h2 := (List.mem_filter.mp hmem').2
    simp only [eligibleJob, Bool.and_eq_true, decide_eq_true_eq] at h2
    exact h2.1.1
  exact ⟨j', hdb, htype, by simp [nextCopyJob, hdb]⟩

/-- Witness for `nextCopyJob_prefers_followers`: one eligible job of
each type, both with `next_run` in the past. -/
theorem nextCopyJob_prefers_followers_w :
    ∃ j', dbNextJob JobTypeCopyFollowers 10 [followingJob.job, followersJob.job] = some j' ∧
      j'.jobType = JobTypeCopyFollowers ∧
      nextCopyJob 10 [followingJob.job, followersJob.job] = convertJob j' :=
  nextCopyJob_prefers_followers 10 [followingJob.job, followersJob.job]
    followersJob.job (by decide) (by decide)

/-- Claim C1 (code bug, failing input): `RunCopyJob` calls
`w.instagram.GetFollowers` unconditionally (worker.go line 149), so a
run of a `copy-following` job fetches the account's followers — not its
following — while `StoreCopyJobResults` persists exactly the users of
the fetched pages into the direction-specific `user_following` table.
Evaluated here on a concrete `copy-following` job: every proxy call of
the run uses the followers endpoint, none the following endpoint, and
the fetched page's user is persisted into the following table. -/
theorem runCopyJob_following_job_fetches_followers :
    followingJob.job.jobType = JobTypeCopyFollowing ∧
    allFetchesAre "followers" (runCopyJob envOnePage followingJob).2 = true ∧
    allFetchesAre "following" (runCopyJob envOnePage followingJob).2 = false ∧
    ((storeCopyJobResults storeEnvOK 50 followingJob
        { next := none, users := [aUser] } sampleDB).1.following.map fun r => r.userID) = [100] ∧
    (storeCopyJobResults storeEnvOK 50 followingJob
        { next := none, users := [aUser] } sampleDB).1.followers = [] := by
  decide

/-- Claim C5 (code bug, failing input): the guard of the intra-run pause
is `a != attempts` (worker.go line 177) with `a` ranging over `0..3`,
which is always true — so on a run that exhausts all 4 attempts with a
remaining cursor the worker also sleeps after the 4th (final) fetch,
before computing the reschedule delay: 4 fetches come with 4 sleeps,
not 3. -/
theorem runCopyJob_sleeps_after_last_attempt :
    (copyLoop envManyPages followersJob attempts 0 none).1 = .ok false ∧
    fetchCount (runCopyJob envManyPages followersJob).2 = 4 ∧
    sleepCount (runCopyJob envManyPages followersJob).2 = 4 := by
  decide

/-- Claim C6 (counterexample): persisting a last page whose `next`
cursor is the empty string does NOT leave the stored cursor cleared:
`StoreCopyJobResults` tests only `results.Next == nil` (database/
worker.go line 119), so the empty string is written verbatim into the
job's metadata cursor. -/
theorem storeCopyJobResults_keeps_empty_cursor :
    ((storeCopyJobResults storeEnvOK 50 followingJob
        { next := some "", users := [] } sampleDB).1.jobs.map fun r => r.metadata.cursor)
      = [some ""] ∧ (some "" : Option String) ≠ none := by
  decide

/-- Claim C9 (counterexample): `NewCopyJob` is not total on copy-typed
jobs — when the metadata payload is the JSON literal `null`, the decode
leaves `m` as a nil pointer and `m.UserID` (models.go line 91)
dereferences it: the call crashes instead of returning a value or an
error. -/
theorem newCopyJob_crashes_on_null_metadata :
    nullMetaJob.jobType = JobTypeCopyFollowers ∧ nullMetaJob.binData = .ok none ∧
    newCopyJob nullMetaJob = .crash := by
  decide

/-- Claim C8: (1) when any statement of `StoreCopyJobResults` fails, the
error is returned and the jobs table — in particular the stored cursor —
is untouched, so the failed page is not passed; (2) the runner then
aborts the run with the store error wrapped as `ErrDBFailure`, without
rescheduling; (3) re-persisting the same page over an already-persisted
state changes, at every key, nothing but `last_seen` (the upsert is
keyed by account and user id: `first_seen`, identity and — for the same
page — handler and picture are reproduced), and repeats the same cursor
update. -/
theorem storeCopyJobResults_failure_and_idempotence :
    (∀ (env : StoreEnv) (now : Int) (job : CopyJob) (results : Connections) (db : DBState)
        (e : String),
      (storeCopyJobResults env now job results db).2 = some e →
      (storeCopyJobResults env now job results db).1.jobs = db.jobs) ∧
    (∀ (env : RunEnv) (cj : CopyJob) (k : Nat) (e : String) (p : Connections),
      k < attempts → env.fetch k = .ok p → env.storeErr k = some e →
      (∀ i, i < k → goodStep env i) →
      (runCopyJob env cj).1 = .error (.dbFailure e) ∧
      scheduleDelays (runCopyJob env cj).2 = []) ∧
    (∀ (env : StoreEnv) (now1 now2 : Int) (job : CopyJob) (results : Connections)
        (db : DBState),
      (∀ i, env.execFail i = none) → env.cursorFail = none →
      ((storeCopyJobResults env now2 job results
          (storeCopyJobResults env now1 job results db).1).1.jobs =
        (storeCopyJobResults env now1 job results db).1.jobs) ∧
      (∀ uid, rowFor job.metadata.userID uid
          (dirTable job (storeCopyJobResults env now2 job results
            (storeCopyJobResults env now1 job results db).1).1) =
        ((rowFor job.metadata.userID uid
            (dirTable job (storeCopyJobResults env now1 job results db).1)).map fun r =>
          if (lastWrite uid results.users).isSome then { r with lastSeen := now2 } else r))) := by
  refine ⟨?_, ?_, ?_⟩
  · intro env now job results db e he
    exact (storeCopyJobResults_jobs env now job results db).2 e he
  · intro env cj k e p hk hfk hse hgood
    obtain ⟨pre, hpre⟩ :=
      copyLoop_store_error env cj k e p hfk hse attempts 0 cj.metadata.cursor
        (Nat.zero_add attempts) (Nat.zero_le k) hk
        (fun i _ hik => hgood i hik)
    have hsch := copyLoop_schedules_nil env cj attempts 0 cj.metadata.cursor
    rw [hpre] at hsch
    refine ⟨?_, ?_⟩
    · simp [runCopyJob, hpre]
    · simp only [runCopyJob, hpre]
      simpa using hsch
  · intro env now1 now2 job results db hex hcf
    obtain ⟨h1ok, h1st⟩ := storeCopyJobResults_ok_state env now1 job results db hex hcf
    obtain ⟨h2ok, h2st⟩ := storeCopyJobResults_ok_state env now2 job results
      (storeCopyJobResults env now1 job results db).1 hex hcf
    constructor
    · rw [h2st, h1st]
      by_cases hF : job.job.jobType = JobTypeCopyFollowing <;>
        simp [hF, setJobCursor_idem]
    · intro uid
      rw [h2st, h1st]
      by_cases hF : job.job.jobType = JobTypeCopyFollowing
      · simp only [dirTable, hF, eq_self_iff_true, if_true, ite_true]
        simp only [rowFor_processUsers]
        cases hlw : lastWrite uid results.users with
        | none => simp
        | some w => simp
      · simp only [dirTable, hF, if_false, ite_false]
        simp only [rowFor_processUsers]
        cases hlw : lastWrite uid results.users with
        | none => simp
        | some w => simp

/-- Witness for `storeCopyJobResults_failure_and_idempotence`: a failing
upsert on a concrete page, a run whose first page fails to store, and a
double persist of the same concrete page. -/
theorem storeCopyJobResults_failure_and_idempotence_w :
    ((storeCopyJobResults storeEnvFail 50 followingJob
        { next := some "n", users := [aUser] } sampleDB).1.jobs = sampleDB.jobs) ∧
    ((runCopyJob envStoreFail followersJob).1 = .error (.dbFailure "db down") ∧
      scheduleDelays (runCopyJob envStoreFail followersJob).2 = []) ∧
    (∀ uid, rowFor followingJob.metadata.userID uid
        (dirTable followingJob (storeCopyJobResults storeEnvOK 60 followingJob
          { next := some "n", users := [aUser] }
          (storeCopyJobResults storeEnvOK 50 followingJob
            { next := some "n", users := [aUser] } sampleDB).1).1) =
      ((rowFor followingJob.metadata.userID uid
          (dirTable followingJob (storeCopyJobResults storeEnvOK 50 followingJob
            { next := some "n", users := [aUser] } sampleDB).1)).map fun r =>
        if (lastWrite uid [aUser]).isSome then { r with lastSeen := 60 } else r)) :=
  ⟨storeCopyJobResults_failure_and_idempotence.1 storeEnvFail 50 followingJob
      { next := some "n", users := [aUser] } sampleDB "insert failed" (by decide),
   storeCopyJobResults_failure_and_idempotence.2.1 envStoreFail followersJob 0 "db down"
      { next := some "cur", users := [aUser] } (by decide) rfl rfl
      (fun i hi => absurd hi (Nat.not_lt_zero i)),
   (storeCopyJobResults_failure_and_idempotence.2.2 storeEnvOK 50 60 followingJob
      { next := some "n", users := [aUser] } sampleDB (fun _ => rfl) rfl).2⟩

/-- Claim C10: a successful `StoreCopyJobResults` call rewrites the
job's row with `state = 'active'` whatever the state was before, stores
the page's next cursor, and changes nothing else in the jobs table:
rows of other jobs are untouched, and on the job's row every column
except `state` and the metadata cursor keeps its value. -/
theorem storeCopyJobResults_active_and_frame (env : StoreEnv) (now : Int) (job : CopyJob)
    (results : Connections) (db : DBState)
    (hok : (storeCopyJobResults env now job results db).2 = none) :
    List.Forall₂ (fun r r' =>
      (r.id ≠ job.job.id → r' = r) ∧
      (r.id = job.job.id → r'.state = JobStateActive ∧
        r'.metadata.cursor = results.next ∧ r'.id = r.id ∧ r'.checksum = r.checksum ∧
        r'.jobType = r.jobType ∧ r'.label = r.label ∧ r'.lastRun = r.lastRun ∧
        r'.nextRun = r.nextRun ∧ r'.metadata.frequency = r.metadata.frequency ∧
        r'.metadata.userID = r.metadata.userID))
      db.jobs (storeCopyJobResults env now job results db).1.jobs := by
  rw [(storeCopyJobResults_jobs env now job results db).1 hok]
  have aux : ∀ l : List JobsRow,
      List.Forall₂ (fun r r' =>
        (r.id ≠ job.job.id → r' = r) ∧
        (r.id = job.job.id → r'.state = JobStateActive ∧
          r'.metadata.cursor = results.next ∧ r'.id = r.id ∧ r'.checksum = r.checksum ∧
          r'.jobType = r.jobType ∧ r'.label = r.label ∧ r'.lastRun = r.lastRun ∧
          r'.nextRun = r.nextRun ∧ r'.metadata.frequency = r.metadata.frequency ∧
          r'.metadata.userID = r.metadata.userID))
        l (setJobCursor job.job.id results.next l) := by
    intro l
    induction l with
    | nil => exact List.Forall₂.nil
    | cons r rest ih =>
      refine List.Forall₂.cons ?_ ih
      by_cases h : r.id = job.job.id
      · refine ⟨fun hne => absurd h hne, fun _ => ?_⟩
        simp [setJobCursor, h]
      · refine ⟨fun _ => ?_, fun he => absurd he h⟩
        simp [setJobCursor, h]
  exact aux db.jobs

/-- Witness for `storeCopyJobResults_active_and_frame`: a concrete
persist over a paused job's row. -/
theorem storeCopyJobResults_active_and_frame_w :
    List.Forall₂ (fun r r' =>
      (r.id ≠ followingJob.job.id → r' = r) ∧
      (r.id = followingJob.job.id → r'.state = JobStateActive ∧
        r'.metadata.cursor = some "n2" ∧ r'.id = r.id ∧ r'.checksum = r.checksum ∧
        r'.jobType = r.jobType ∧ r'.label = r.label ∧ r'.lastRun = r.lastRun ∧
        r'.nextRun = r.nextRun ∧ r'.metadata.frequency = r.metadata.frequency ∧
        r'.metadata.userID = r.metadata.userID))
      sampleDB.jobs (storeCopyJobResults storeEnvOK 50 followingJob
        { next := some "n2", users := [aUser] } sampleDB).1.jobs :=
  storeCopyJobResults_active_and_frame storeEnvOK 50 followingJob
    { next := some "n2", users := [aUser] } sampleDB (by decide)

/-- Claim C6 (amended): the empty-string cursor is normalized to absent
when a job is loaded (`NewCopyJob`) and when the runner inspects a
fetched page (a page whose `next` is `""` completes the sync); but the
store clears the persisted cursor only when the page's `next` is
absent — it writes the page's `next` verbatim, so an empty-string
`next` is persisted as `""` (and only normalized to absent on the next
load). -/
theorem cursor_empty_normalization :
    (∀ (j : MJob) (m : CopyJobMetadata) (cj : CopyJob),
      j.binData = .ok (some m) → m.cursor = some "" →
      newCopyJob j = .ok cj → cj.metadata.cursor = none) ∧
    (∀ (env : RunEnv) (cj : CopyJob) (n a : Nat) (cur : Option String) (res : Connections),
      env.fetch a = .ok res → res.next = some "" → env.storeErr a = none →
      (copyLoop env cj (n + 1) a cur).1 = .ok true) ∧
    (∀ (env : StoreEnv) (now : Int) (job : CopyJob) (results : Connections) (db : DBState),
      (storeCopyJobResults env now job results db).2 = none →
      ∀ r' ∈ (storeCopyJobResults env now job results db).1.jobs,
        r'.id = job.job.id → r'.metadata.cursor = results.next) := by
  refine ⟨?_, ?_, ?_⟩
  · intro j m cj hbin hc hok
    obtain ⟨m0, hbin', hmeta⟩ := newCopyJob_ok_metadata j cj hok
    rw [hbin] at hbin'
    have hm : m = m0 := by
      simpa using hbin'
    subst hm
    rw [hmeta]
    exact normalizeMeta_cursor_empty m hc
  · intro env cj n a cur res hf hn hs
    simp [copyLoop, hf, hs, hn]
  · intro env now job results db hok r' hr' hid
    rw [(storeCopyJobResults_jobs env now job results db).1 hok] at hr'
    exact (setJobCursor_fields job.job.id results.next db.jobs r' hr' hid).1

/-- Witness for `cursor_empty_normalization`: a concrete load of an
empty-string stored cursor, a concrete page with `next = ""`, and a
concrete persist. -/
theorem cursor_empty_normalization_w :
    ({ job := emptyCursorJob,
       metadata := { cursor := none, frequency := "daily", userID := 7 } } :
        CopyJob).metadata.cursor = none ∧
    (copyLoop envEmptyNext followersJob (3 + 1) 0 none).1 = .ok true ∧
    (∀ r' ∈ (storeCopyJobResults storeEnvOK 50 followingJob
        { next := some "n3", users := [] } sampleDB).1.jobs,
      r'.id = followingJob.job.id → r'.metadata.cursor = some "n3") :=
  ⟨cursor_empty_normalization.1 emptyCursorJob
      { cursor := some "", frequency := "daily", userID := 7 }
      { job := emptyCursorJob,
        metadata := { cursor := none, frequency := "daily", userID := 7 } }
      rfl rfl (by decide),
   cursor_empty_normalization.2.1 envEmptyNext followersJob 3 0 none
      { next := some "", users := [] } rfl rfl rfl,
   cursor_empty_normalization.2.2 storeEnvOK 50 followingJob
      { next := some "n3", users := [] } sampleDB (by decide)⟩

/-- Claim C9 (amended): `NewCopyJob` on a copy-typed job returns, for
every metadata payload except the JSON literal `null` (on which it
crashes — see the counterexample), either a `CopyJob` whose metadata
satisfies `UserID ≥ 1`, frequency ∈ {daily, weekly} and cursor ≠
pointer-to-empty-string, or an error. -/
theorem newCopyJob_total_without_null (j : MJob)
    (ht : IsValidJobType j.jobType = true) (hnn : j.binData ≠ .ok none) :
    (∃ cj, newCopyJob j = .ok cj ∧ 1 ≤ cj.metadata.userID ∧
      (cj.metadata.frequency = JobFrequencyDaily ∨
        cj.metadata.frequency = JobFrequencyWeekly) ∧
      cj.metadata.cursor ≠ some "") ∨
    (∃ e, newCopyJob j = .err e) := by
  have hty : ¬(j.jobType ≠ JobTypeCopyFollowers ∧ j.jobType ≠ JobTypeCopyFollowing) := by
    simp only [IsValidJobType, Bool.or_eq_true, decide_eq_true_eq] at ht
    rcases ht with h | h <;> simp [h]
  unfold newCopyJob
  rw [if_neg hty]
  cases hbin : j.binData with
  | error e => exact .inr ⟨_, rfl⟩
  | ok mo =>
    cases mo with
    | none => exact absurd hbin hnn
    | some m0 =>
      dsimp only
      by_cases huid : m0.userID < 1
      · rw [if_pos huid]
        exact .inr ⟨_, rfl⟩
      · rw [if_neg huid]
        refine .inl ⟨_, rfl, ?_, normalizeMeta_frequency m0, normalizeMeta_cursor m0⟩
        show 1 ≤ (normalizeMeta m0).userID
        have := normalizeMeta_userID m0
        omega

/-- Witness for `newCopyJob_total_without_null`: the job with an
empty-string cursor and an otherwise valid payload. -/
theorem newCopyJob_total_without_null_w :
    (∃ cj, newCopyJob emptyCursorJob = .ok cj ∧ 1 ≤ cj.metadata.userID ∧
      (cj.metadata.frequency = JobFrequencyDaily ∨
        cj.metadata.frequency = JobFrequencyWeekly) ∧
      cj.metadata.cursor ≠ some "") ∨
    (∃ e, newCopyJob emptyCursorJob = .err e) :=
  newCopyJob_total_without_null emptyCursorJob (by decide) (by decide)

end Instaman
